import Mathlib

/-!
Verification of the shunting-yard calculator (`src/calc.py`).

The embedding below translates the Python source into Lean:

* Python numbers are modelled by the tagged union `Value`
  (`int` becomes `VInt : Int`, `float` becomes `VFloat : Rat`;
  floating-point values are modelled as exact rationals, which agrees with
  Python on every computation appearing in the claims).
* Python exceptions become `Except` results.  Domain errors
  (`InvalidExpressionError`, `DivisionByZeroError`) carry a tag for the
  message constant used at the raise site (the module `const.py` with the
  message strings is not part of the sources; only the distinct constant
  names matter here).  `PyErr.foreign` stands for any Python exception that
  is not a `CalculatorError` (e.g. the `ZeroDivisionError` that
  `operator.pow` raises for `0 ** -1`); `calculate` rewraps those.
* The lexical pattern `constants.TOKEN_PATTERN` lives in the missing
  `const.py`; the scanner `scanAux` is modelled from the spec (section 4.2)
  instead, see its doc comment.
-/

namespace Calc

/-- Tagged numeric value: Python `int` or `float`
    (floats modelled as exact rationals). -/
inductive Value where
  | VInt (n : Int)
  | VFloat (q : Rat)
deriving DecidableEq, Repr

/-- Which message constant an `InvalidExpressionError` was raised with. -/
inductive InvalidReason where
  | emptyExpression
  | unbalancedParentheses
  | invalidSymbol (sym : String)
  | notEnoughOperands
  | integerOperation (op : String)
  | invalidExpression
deriving DecidableEq, Repr

/-- The calculator's error taxonomy (`CalculatorError` and its two
    subclasses; `generic` is a bare `CalculatorError` produced by the
    rewrapping branch of `calculate`). -/
inductive CalcError where
  | invalidExpr (r : InvalidReason)
  | divisionByZero
  | generic (msg : String)
deriving DecidableEq, Repr

/-- A Python exception as seen inside the pipeline: either one of the
    calculator's own errors, or some other (non-`CalculatorError`)
    exception. -/
inductive PyErr where
  | calcErr (e : CalcError)
  | foreign (msg : String)
deriving DecidableEq, Repr

/-- Operator associativity (the `"left"` / `"right"` strings of the
    `OPERATORS` dictionary). -/
inductive Assoc where
  | left
  | right
deriving DecidableEq, Repr

/-- The keys of the `OPERATORS` dictionary. -/
def opSymbols : List String := ["**", "*", "/", "//", "%", "+", "-", "u+", "u-"]

/-- The binary operator symbols (keys of `OPERATORS` that are not
    `u`-tagged). -/
def binarySymbols : List String := ["**", "*", "/", "//", "%", "+", "-"]

/-- `OPERATORS[sym]["precedence"]` (0 for symbols outside the table). -/
def precedence : String → Nat
  | "**" => 4
  | "*" => 3
  | "/" => 3
  | "//" => 3
  | "%" => 3
  | "+" => 2
  | "-" => 2
  | "u+" => 5
  | "u-" => 5
  | _ => 0

/-- `OPERATORS[sym]["associativity"]` (left for symbols outside the table;
    only queried on table members). -/
def associativity : String → Assoc
  | "**" => .right
  | "u+" => .right
  | "u-" => .right
  | _ => .left

/-- Python's `token.startswith("u")` (stated over the character list so
    that it evaluates by kernel reduction). -/
def headIsU (t : String) : Bool :=
  match t.data with
  | 'u' :: _ => true
  | _ => false

/-- Strip an optional leading sign, as Python's `float()` accepts one. -/
def numericBody : List Char → List Char
  | '+' :: r => r
  | '-' :: r => r
  | r => r

/-- `_is_number`: does `float(token)` succeed?  Modelled for the token
    shapes the scanner can produce: an optional sign followed by digits
    with at most one decimal point and at least one digit.  (Python's
    `float()` also accepts exotic spellings such as `"1e3"` or `"inf"`,
    but the lexical pattern never produces those.) -/
def _is_number (t : String) : Bool :=
  let cs := numericBody t.data
  cs.all (fun c => c.isDigit || c == '.') &&
    decide (cs.count '.' ≤ 1) && cs.any (fun c => c.isDigit)

/-- The single-character tokens of the lexical pattern. -/
def singleOpChars : List Char := ['+', '-', '*', '/', '%', '(', ')']

/-- Emit the pending number literal, if any. -/
def flushNum (num : List Char) : List String :=
  if num.isEmpty then [] else [String.mk num]

/-- Modelled from the spec: the lexical pattern `constants.TOKEN_PATTERN`
    is defined in `const.py`, which is not among the sources.  Per spec
    section 4.2 the scan recognises decimal numbers (optional fractional
    part), the two-character operators `**` and `//`, the single-character
    operators `+ - * / %`, parentheses, and skips whitespace; any other
    non-whitespace character becomes a (later rejected) invalid-symbol
    token.  `num` accumulates the digits/decimal point of the number
    literal currently being read. -/
def scanAux : List Char → List Char → List String
  | num, [] => flushNum num
  | num, '*' :: '*' :: cs => flushNum num ++ "**" :: scanAux [] cs
  | num, '/' :: '/' :: cs => flushNum num ++ "//" :: scanAux [] cs
  | num, c :: cs =>
    if c.isDigit || c == '.' then scanAux (num ++ [c]) cs
    else if c ∈ singleOpChars then flushNum num ++ String.mk [c] :: scanAux [] cs
    else if c.isWhitespace then flushNum num ++ scanAux [] cs
    else flushNum num ++ String.mk [c] :: scanAux [] cs

/-- The token-validity test of `tokenize`: a token passes when it is a
    number, an `OPERATORS` key, a substring of `"()"`, one of the
    two-character operators, or starts with `u`.  (Python's `token in "()"`
    is a substring test, hence the four-element list.) -/
def isValidToken (t : String) : Bool :=
  _is_number t || t ∈ opSymbols || t ∈ ["", "(", ")", "()"] ||
    t ∈ (["**", "//"] : List String) || headIsU t

/-- The unary test of `_process_unary_operators`: a `+`/`-` at position
    `i` is unary iff `i == 0`, or the previous (original) token is `"("`,
    or it is an `OPERATORS` key that does not start with `u`.
    `prev = none` encodes `i == 0`. -/
def isUnaryPosition : Option String → Bool
  | none => true
  | some p => p == "(" || (decide (p ∈ opSymbols) && !headIsU p)

/-- Retag one token: `+`/`-` in unary position becomes `u+`/`u-`. -/
def classifyToken (prev : Option String) (t : String) : String :=
  if (t == "+" || t == "-") && isUnaryPosition prev then "u" ++ t else t

/-- The loop of `_process_unary_operators`; `prev` is the previous token
    of the ORIGINAL list (the Python code inspects `tokens[i - 1]`, not the
    already-processed output). -/
def processUnary : Option String → List String → List String
  | _, [] => []
  | prev, t :: ts => classifyToken prev t :: processUnary (some t) ts

/-- `_process_unary_operators`. -/
def _process_unary_operators (tokens : List String) : List String :=
  processUnary none tokens

/-- `tokenize`: scan, reject the first invalid token (Python raises on the
    first offender in its check loop), then retag unary signs.  The
    Python code also strips whitespace from each matched token and drops
    empty ones; the scanner above never produces such tokens, so that step
    is the identity here. -/
def tokenize (expression : String) : Except PyErr (List String) :=
  let tokens := scanAux [] expression.data
  match tokens.find? (fun t => !isValidToken t) with
  | some t => .error (.calcErr (.invalidExpr (.invalidSymbol t)))
  | none => .ok (_process_unary_operators tokens)

/-- `_should_pop_operator`. -/
def shouldPop (stackTop currentToken : String) : Bool :=
  if stackTop ∉ opSymbols then false
  else if precedence currentToken < precedence stackTop then true
  else if precedence stackTop = precedence currentToken ∧
      associativity currentToken = Assoc.left then true
  else false

/-- The `while` loop of the operator case of `to_rpn`: pop stack entries
    to the output while the stack is nonempty, its top is not `"("`, and
    `_should_pop_operator` holds.  Returns (new stack, new output). -/
def popWhileLoop : List String → List String → String → List String × List String
  | [], out, _ => ([], out)
  | top :: rest, out, tok =>
    if top ≠ "(" ∧ shouldPop top tok then popWhileLoop rest (out ++ [top]) tok
    else (top :: rest, out)

/-- The `while` loop of the `")"` case of `to_rpn`: pop to the output
    until a `"("` is found (discarding it); `none` when the stack empties
    first (unbalanced parentheses). -/
def popUntilLParen : List String → List String → Option (List String × List String)
  | [], _ => none
  | top :: rest, out =>
    if top = "(" then some (rest, out) else popUntilLParen rest (out ++ [top])

/-- The final drain of `to_rpn`: pop everything to the output, failing on
    a leftover `"("`. -/
def drainStack : List String → List String → Except PyErr (List String)
  | [], out => .ok out
  | top :: rest, out =>
    if top = "(" then .error (.calcErr (.invalidExpr .unbalancedParentheses))
    else drainStack rest (out ++ [top])

/-- The token loop of `to_rpn` (`out` is the output list, `st` the
    operator stack, topmost first).  Tokens that are neither numbers,
    operators nor parentheses are silently skipped, as in the source. -/
def rpnLoop : List String → List String → List String → Except PyErr (List String)
  | [], out, st => drainStack st out
  | t :: ts, out, st =>
    if _is_number t then rpnLoop ts (out ++ [t]) st
    else if t ∈ opSymbols then
      rpnLoop ts (popWhileLoop st out t).2 (t :: (popWhileLoop st out t).1)
    else if t = "(" then rpnLoop ts out ("(" :: st)
    else if t = ")" then
      match popUntilLParen st out with
      | none => .error (.calcErr (.invalidExpr .unbalancedParentheses))
      | some (st', out') => rpnLoop ts out' st'
    else rpnLoop ts out st

/-- `to_rpn`. -/
def to_rpn (tokens : List String) : Except PyErr (List String) :=
  rpnLoop tokens [] []

/-- Digit run to a natural number. -/
def digitsToNat (l : List Char) : Nat :=
  l.foldl (fun a c => a * 10 + (c.toNat - '0'.toNat)) 0

/-- `int(token)` on a signed digit string. -/
def intOfString (t : String) : Int :=
  match t.data with
  | '-' :: r => -(digitsToNat r : Int)
  | '+' :: r => (digitsToNat r : Int)
  | r => (digitsToNat r : Int)

/-- Exact rational addition.  (The library's `Rat.add` is `@[irreducible]`,
    so the arithmetic on normalized rationals is spelled out through the
    smart constructor `Rat.divInt`, which the kernel can evaluate; the
    results agree with the library operations.) -/
def ratAdd (a b : Rat) : Rat :=
  Rat.divInt (a.num * b.den + b.num * a.den) (a.den * b.den)

/-- Exact rational subtraction. -/
def ratSub (a b : Rat) : Rat :=
  Rat.divInt (a.num * b.den - b.num * a.den) (a.den * b.den)

/-- Exact rational multiplication. -/
def ratMul (a b : Rat) : Rat :=
  Rat.divInt (a.num * b.num) (a.den * b.den)

/-- Exact rational division (`a / b`; yields `0` for `b = 0`, a case the
    evaluator's zero check makes unreachable). -/
def ratDiv (a b : Rat) : Rat :=
  Rat.divInt (a.num * b.den) (a.den * b.num)

/-- Exact rational negation. -/
def ratNeg (a : Rat) : Rat :=
  Rat.divInt (-a.num) a.den

/-- Exact rational reciprocal. -/
def ratInv (a : Rat) : Rat :=
  Rat.divInt a.den a.num

/-- Floor of a rational (`math.floor`; the denominator is positive). -/
def ratFloor (a : Rat) : Int :=
  Int.fdiv a.num a.den

/-- Monoid power on `Rat` by explicit recursion (kernel-reducible). -/
def ratNpow (q : Rat) : Nat → Rat
  | 0 => mkRat 1 1
  | n + 1 => ratMul (ratNpow q n) q

/-- Integer power on `Rat` (Python `float ** int`). -/
def ratZpow (q : Rat) (n : Int) : Rat :=
  if 0 ≤ n then ratNpow q n.toNat else ratInv (ratNpow q (-n).toNat)

/-- `float(token)` on a signed decimal string (exact rational).  Core
    `Rat` operations are used throughout the numeric model because they
    evaluate by kernel reduction. -/
def ratOfString (t : String) : Rat :=
  let signed :=
    fun (cs : List Char) =>
      let ip := cs.takeWhile (fun c => c ≠ '.')
      let fp := (cs.dropWhile (fun c => c ≠ '.')).drop 1
      mkRat ((digitsToNat ip * 10 ^ fp.length + digitsToNat fp : Nat) : Int)
        (10 ^ fp.length)
  match t.data with
  | '-' :: r => ratNeg (signed r)
  | '+' :: r => signed r
  | r => signed r

/-- Number-token parsing of `evaluate_rpn`: a `.` in the literal makes a
    `float`, otherwise an `int`. -/
def parseValue (t : String) : Value :=
  if t.data.contains '.' then .VFloat (ratOfString t) else .VInt (intOfString t)

/-- Numeric coercion `int` → `float` used implicitly by Python's mixed
    arithmetic. -/
def toRat : Value → Rat
  | .VInt n => mkRat n 1
  | .VFloat q => q

/-- `isinstance(v, int)`. -/
def isIntValue : Value → Bool
  | .VInt _ => true
  | .VFloat _ => false

/-- Python `v == 0` across both numeric types. -/
def isZeroValue : Value → Bool
  | .VInt n => n == 0
  | .VFloat q => q.num == 0

/-- `_validate_operation`. -/
def _validate_operation (op : String) (left right : Value) : Except PyErr Unit :=
  if op ∈ (["/", "//", "%"] : List String) ∧ isZeroValue right then
    .error (.calcErr .divisionByZero)
  else if op ∈ (["//", "%"] : List String) ∧
      ¬(isIntValue left ∧ isIntValue right) then
    .error (.calcErr (.invalidExpr (.integerOperation op)))
  else .ok ()

/-- Arithmetic with Python's type promotion: `int op int` stays `int`,
    any `float` operand makes the result `float`. -/
def arithResult (f : Int → Int → Int) (g : Rat → Rat → Rat)
    (l r : Value) : Value :=
  match l, r with
  | .VInt a, .VInt b => .VInt (f a b)
  | _, _ => .VFloat (g (toRat l) (toRat r))

/-- `operator.pow`.  `int ** nonnegative int` is an `int`; a negative
    integer exponent yields a `float`, except that a zero base raises
    Python's `ZeroDivisionError` (a non-`CalculatorError`).  A
    non-integer-valued exponent would produce an irrational float that the
    rational model cannot represent; no claim depends on that case and it
    is mapped to `0.0`. -/
def powResult (l r : Value) : Except PyErr Value :=
  match l, r with
  | .VInt a, .VInt b =>
    if 0 ≤ b then .ok (.VInt (a ^ b.toNat))
    else if a = 0 then .error (.foreign "0 cannot be raised to a negative power")
    else .ok (.VFloat (ratZpow (mkRat a 1) b))
  | _, _ =>
    let bq := toRat r
    if bq.den = 1 then
      if (toRat l).num = 0 ∧ bq.num < 0 then
        .error (.foreign "0 cannot be raised to a negative power")
      else .ok (.VFloat (ratZpow (toRat l) bq.num))
    else .ok (.VFloat 0)

/-- `OPERATORS[op]["function"]` for the binary operators.  `/` is
    `operator.truediv` (always `float`), `//` is `operator.floordiv`,
    `%` is `operator.mod` (both floor-convention, like Python). -/
def applyBinary (op : String) (l r : Value) : Except PyErr Value :=
  match op with
  | "+" => .ok (arithResult (· + ·) ratAdd l r)
  | "-" => .ok (arithResult (· - ·) ratSub l r)
  | "*" => .ok (arithResult (· * ·) ratMul l r)
  | "/" => .ok (.VFloat (ratDiv (toRat l) (toRat r)))
  | "//" =>
    match l, r with
    | .VInt a, .VInt b => .ok (.VInt (Int.fdiv a b))
    | _, _ => .ok (.VFloat (mkRat (ratFloor (ratDiv (toRat l) (toRat r))) 1))
  | "%" =>
    match l, r with
    | .VInt a, .VInt b => .ok (.VInt (Int.fmod a b))
    | _, _ =>
      .ok (.VFloat (ratSub (toRat l)
        (ratMul (mkRat (ratFloor (ratDiv (toRat l) (toRat r))) 1) (toRat r))))
  | "**" => powResult l r
  | _ => .ok l

/-- `OPERATORS[op]["function"]` for the unary operators (`u+` is the
    identity, `u-` negation). -/
def applyUnary (op : String) (v : Value) : Value :=
  if op == "u-" then
    match v with
    | .VInt n => .VInt (-n)
    | .VFloat q => .VFloat (-q)
  else v

/-- The token loop of `evaluate_rpn` (`st` is the value stack, topmost
    first).  Tokens that are neither numbers nor operators are silently
    skipped, as in the source. -/
def evalLoop : List String → List Value → Except PyErr (List Value)
  | [], st => .ok st
  | t :: ts, st =>
    if _is_number t then evalLoop ts (parseValue t :: st)
    else if t ∈ opSymbols then
      if headIsU t then
        match st with
        | [] => .error (.calcErr (.invalidExpr .notEnoughOperands))
        | v :: rest => evalLoop ts (applyUnary t v :: rest)
      else
        match st with
        | right :: left :: rest =>
          match _validate_operation t left right with
          | .error e => .error e
          | .ok _ =>
            match applyBinary t left right with
            | .error e => .error e
            | .ok res => evalLoop ts (res :: rest)
        | _ => .error (.calcErr (.invalidExpr .notEnoughOperands))
    else evalLoop ts st

/-- `evaluate_rpn`: run the loop, then demand exactly one stack entry. -/
def evaluate_rpn (rpn : List String) : Except PyErr Value :=
  match evalLoop rpn [] with
  | .error e => .error e
  | .ok [v] => .ok v
  | .ok _ => .error (.calcErr (.invalidExpr .invalidExpression))

/-- The character loop of `_check_parentheses` (`st` is the stack). -/
def checkParenLoop : List Char → List Char → Bool
  | [], st => st.isEmpty
  | c :: cs, st =>
    if c = '(' then checkParenLoop cs (c :: st)
    else if c = ')' then
      match st with
      | [] => false
      | _ :: st' => checkParenLoop cs st'
    else checkParenLoop cs st

/-- `_check_parentheses`. -/
def _check_parentheses (expression : String) : Bool :=
  checkParenLoop expression.data []

/-- `expression.replace(" ", "")`: removes space characters only. -/
def stripSpaces (s : String) : String :=
  String.mk (s.data.filter (fun c => c ≠ ' '))

/-- The body of `calculate`'s `try` block. -/
def calcBody (expression : String) : Except PyErr Value :=
  let e := stripSpaces expression
  if e = "" then .error (.calcErr (.invalidExpr .emptyExpression))
  else if _check_parentheses e = false then
    .error (.calcErr (.invalidExpr .unbalancedParentheses))
  else
    match tokenize e with
    | .error err => .error err
    | .ok tokens =>
      match to_rpn tokens with
      | .error err => .error err
      | .ok rpn => evaluate_rpn rpn

/-- `calculate`: run the body; `CalculatorError`s re-raise unchanged, any
    other exception is rewrapped as a generic `CalculatorError`. -/
def calculate (expression : String) : Except CalcError Value :=
  match calcBody expression with
  | .ok v => .ok v
  | .error (.calcErr e) => .error e
  | .error (.foreign msg) => .error (.generic msg)

/-- The subsequence of parenthesis tokens of a token list. -/
def parenSeq (ts : List String) : List String :=
  ts.filter (fun t => t == "(" || t == ")")

/-- The parenthesis characters of a string, as tokens. -/
def charParenSeq (cs : List Char) : List String :=
  cs.filterMap (fun c =>
    if c = '(' then some "(" else if c = ')' then some ")" else none)

/-- Dyck check of a paren-token sequence starting with `n` unmatched
    opening parentheses (non-paren entries are skipped). -/
def balancedFrom : List String → Nat → Bool
  | [], n => n == 0
  | t :: ts, n =>
    if t == "(" then balancedFrom ts (n + 1)
    else if t == ")" then
      match n with
      | 0 => false
      | m + 1 => balancedFrom ts m
    else balancedFrom ts n

instance {ε α : Type} [DecidableEq ε] [DecidableEq α] :
    DecidableEq (Except ε α) := fun a b =>
  match a, b with
  | .ok x, .ok y =>
    if h : x = y then .isTrue (by rw [h])
    else .isFalse (by intro hc; cases hc; exact h rfl)
  | .error x, .error y =>
    if h : x = y then .isTrue (by rw [h])
    else .isFalse (by intro hc; cases hc; exact h rfl)
  | .ok _, .error _ => .isFalse (by intro hc; cases hc)
  | .error _, .ok _ => .isFalse (by intro hc; cases hc)

/-- C1: the binding acceptance tests hold: `calculate "-2 ** 3"` returns
    the integer `-8`, `calculate "(-2) ** 3"` returns `-8`, and
    `calculate "2 ** 3 ** 2"` returns `512` (right-associative
    exponentiation chaining). -/
theorem acceptance_tests_pow :
    calculate "-2 ** 3" = .ok (.VInt (-8)) ∧
    calculate "(-2) ** 3" = .ok (.VInt (-8)) ∧
    calculate "2 ** 3 ** 2" = .ok (.VInt 512) := by
  refine ⟨by decide, by decide, by decide⟩

/-- C3: on `"-2 ** 2"`, where the two groupings diverge numerically, the
    converter pops the pending `u-` (precedence 5) before pushing `**`
    (precedence 4), so the RPN form is `2 u- 2 **` and the result is
    `(-2) ** 2 = 4`, not `-(2 ** 2) = -4`. -/
theorem unary_minus_binds_tighter_than_pow :
    tokenize "-2**2" = .ok ["u-", "2", "**", "2"] ∧
    to_rpn ["u-", "2", "**", "2"] = .ok ["2", "u-", "2", "**"] ∧
    calculate "-2 ** 2" = .ok (.VInt 4) ∧
    calculate "-2 ** 2" ≠ .ok (.VInt (-4)) := by
  refine ⟨by decide, by decide, by decide, by decide⟩

/-- C10: true division always produces a float while floor-division and
    modulo on integers produce integers: `calculate "15 / 3"` is the
    float `5.0` (not the integer `5`), `calculate "10 // 3"` is the
    integer `3`, and `calculate "10 % 3"` is the integer `1`. -/
theorem division_result_types :
    calculate "15 / 3" = .ok (.VFloat (mkRat 5 1)) ∧
    Value.VFloat (mkRat 5 1) ≠ Value.VInt 5 ∧
    calculate "10 // 3" = .ok (.VInt 3) ∧
    calculate "10 % 3" = .ok (.VInt 1) := by
  refine ⟨by decide, by decide, by decide, by decide⟩

/-- C4: during binary evaluation the zero check runs first: for `/`, `//`
    and `%` a zero right operand gives `DivisionByZero`; for `//` and `%`
    with a nonzero right operand, a non-integer operand gives the
    integer-operation `InvalidExpression`; in particular `//` and `%` with
    a zero right operand give `DivisionByZero` even on float operands. -/
theorem validate_zero_check_first :
    (∀ op l r, op ∈ (["/", "//", "%"] : List String) → isZeroValue r = true →
      _validate_operation op l r = .error (.calcErr .divisionByZero)) ∧
    (∀ op l r, op ∈ (["//", "%"] : List String) → isZeroValue r = false →
      (isIntValue l = false ∨ isIntValue r = false) →
      _validate_operation op l r =
        .error (.calcErr (.invalidExpr (.integerOperation op)))) ∧
    evaluate_rpn ["10.5", "0", "//"] = .error (.calcErr .divisionByZero) ∧
    evaluate_rpn ["10.5", "3", "//"] =
      .error (.calcErr (.invalidExpr (.integerOperation "//"))) := by
  refine ⟨?_, ?_, by decide, by decide⟩
  · intro op l r hop hz
    simp [_validate_operation, hop, hz]
  · intro op l r hop hz hint
    have hop' := hop
    simp only [List.mem_cons, List.not_mem_nil, or_false] at hop'
    have hop3 : op ∈ (["/", "//", "%"] : List String) := by
      rcases hop' with rfl | rfl <;> decide
    rcases hint with h | h <;> simp [_validate_operation, hop, hop3, hz, h]

/-- C4 witness: `//` applied to the floats `10.5` and `0.0` fails with
    `DivisionByZero`, not with the integer-operand error. -/
theorem validate_zero_check_first_witness :
    _validate_operation "//" (.VFloat (mkRat 21 2)) (.VFloat (mkRat 0 1)) =
      .error (.calcErr .divisionByZero) :=
  validate_zero_check_first.1 "//" (.VFloat (mkRat 21 2)) (.VFloat (mkRat 0 1))
    (by decide) (by decide)

/-- C6: `evaluate_rpn` returns a value exactly when the evaluation loop
    finishes with a one-element stack (and then returns that element);
    with any other final stack it fails with the invalid-expression
    error; the empty sequence and `["1", "2"]` both fail. -/
theorem evaluate_rpn_final_stack :
    (∀ rpn st, evalLoop rpn [] = .ok st →
      (∃ v, st = [v] ∧ evaluate_rpn rpn = .ok v) ∨
      (st.length ≠ 1 ∧
        evaluate_rpn rpn = .error (.calcErr (.invalidExpr .invalidExpression)))) ∧
    (∀ rpn v, evaluate_rpn rpn = .ok v → evalLoop rpn [] = .ok [v]) ∧
    evaluate_rpn [] = .error (.calcErr (.invalidExpr .invalidExpression)) ∧
    evaluate_rpn ["1", "2"] =
      .error (.calcErr (.invalidExpr .invalidExpression)) := by
  refine ⟨?_, ?_, by decide, by decide⟩
  · intro rpn st h
    match st with
    | [v] => exact .inl ⟨v, rfl, by simp [evaluate_rpn, h]⟩
    | [] => exact .inr ⟨by simp, by simp [evaluate_rpn, h]⟩
    | a :: b :: rest => exact .inr ⟨by simp, by simp [evaluate_rpn, h]⟩
  · intro rpn v h
    unfold evaluate_rpn at h
    rcases he : evalLoop rpn [] with e | st
    · rw [he] at h; cases h
    · rw [he] at h
      match st, h with
      | [w], h => cases h; rfl

/-- C6 witness: the loop on `["1"]` ends with the one-element stack
    `[1]`, and `evaluate_rpn` returns that value. -/
theorem evaluate_rpn_final_stack_witness :
    (∃ v, [Value.VInt 1] = [v] ∧ evaluate_rpn ["1"] = .ok v) ∨
    ([Value.VInt 1].length ≠ 1 ∧
      evaluate_rpn ["1"] = .error (.calcErr (.invalidExpr .invalidExpression))) :=
  evaluate_rpn_final_stack.1 ["1"] [Value.VInt 1] (by decide)

/-- C7 counterexample: the input `"\t"` consists solely of whitespace,
    yet `calculate` does not strip it (only `" "` is replaced), and the
    error raised is the evaluator's invalid-expression error on an empty
    token sequence, not the empty-expression error. -/
theorem whitespace_strip_counterexample :
    stripSpaces "\t" = "\t" ∧
    calculate "\t" = .error (.invalidExpr .invalidExpression) ∧
    calculate "\t" ≠ .error (.invalidExpr .emptyExpression) := by
  refine ⟨by decide, by decide, by decide⟩

/-- C7 (amended): `calculate` removes only space characters (U+0020);
    whenever the space-stripped input is empty it fails with the
    empty-expression `InvalidExpression` (so space-only inputs do), while
    an input of other whitespace (tab, newline) reaches the evaluator
    with zero tokens and fails with the invalid-expression
    `InvalidExpression` instead. -/
theorem empty_after_space_strip :
    (∀ s, stripSpaces s = "" →
      calculate s = .error (.invalidExpr .emptyExpression)) ∧
    calculate "   " = .error (.invalidExpr .emptyExpression) ∧
    calculate "\n" = .error (.invalidExpr .invalidExpression) := by
  refine ⟨?_, by decide, by decide⟩
  intro s h
  simp [calculate, calcBody, h]

/-- C7 witness: the all-space input `" "` strips to the empty string and
    fails with the empty-expression error. -/
theorem empty_after_space_strip_witness :
    calculate " " = .error (.invalidExpr .emptyExpression) :=
  empty_after_space_strip.1 " " (by decide)

/-- C8: domain errors raised inside the pipeline propagate unchanged
    through `calculate`, any non-`CalculatorError` exception is rewrapped
    as a generic `CalculatorError`, and every run of `calculate` ends in
    a value or an error of the taxonomy. -/
theorem error_propagation_policy :
    (∀ s e, calcBody s = .error (.calcErr e) → calculate s = .error e) ∧
    (∀ s m, calcBody s = .error (.foreign m) →
      calculate s = .error (.generic m)) ∧
    (∀ s, (∃ v, calculate s = .ok v) ∨
      (∃ e : CalcError, calculate s = .error e)) := by
  refine ⟨?_, ?_, ?_⟩
  · intro s e h; simp [calculate, h]
  · intro s m h; simp [calculate, h]
  · intro s
    rcases h : calcBody s with e | v
    · match e with
      | .calcErr e' => exact .inr ⟨e', by simp [calculate, h]⟩
      | .foreign m => exact .inr ⟨.generic m, by simp [calculate, h]⟩
    · exact .inl ⟨v, by simp [calculate, h]⟩

/-- C8 witness: the pipeline's `DivisionByZero` for `"5 / 0"` propagates
    unchanged through `calculate`. -/
theorem error_propagation_policy_witness :
    calculate "5 / 0" = .error .divisionByZero :=
  error_propagation_policy.1 "5 / 0" .divisionByZero (by decide)

theorem opSymbols_not_number : ∀ t ∈ opSymbols, _is_number t = false := by
  intro t ht
  simp only [opSymbols, List.mem_cons, List.not_mem_nil, or_false] at ht
  rcases ht with rfl | rfl | rfl | rfl | rfl | rfl | rfl | rfl | rfl <;> decide

/-- C2: `_should_pop_operator` holds exactly when the stack top is an
    operator whose precedence is strictly greater than the incoming
    operator's, or equal with the incoming operator left-associative;
    hence the right-associative `**`, `u+`, `u-` never trigger a pop on
    equal precedence; and the operator case of the `to_rpn` loop pops by
    exactly this test before pushing. -/
theorem shunting_pop_condition :
    (∀ top tok, tok ∈ opSymbols →
      (shouldPop top tok = true ↔
        top ∈ opSymbols ∧
          (precedence tok < precedence top ∨
            (precedence top = precedence tok ∧ associativity tok = .left)))) ∧
    (∀ top tok, tok ∈ (["**", "u+", "u-"] : List String) →
      precedence top = precedence tok → shouldPop top tok = false) ∧
    (∀ ts out st tok, tok ∈ opSymbols →
      rpnLoop (tok :: ts) out st =
        rpnLoop ts (popWhileLoop st out tok).2
          (tok :: (popWhileLoop st out tok).1)) := by
  refine ⟨?_, ?_, ?_⟩
  · intro top tok htok
    by_cases hmem : top ∈ opSymbols
    · simp only [opSymbols, List.mem_cons, List.not_mem_nil, or_false]
        at htok hmem
      rcases htok with rfl | rfl | rfl | rfl | rfl | rfl | rfl | rfl | rfl <;>
        rcases hmem with rfl | rfl | rfl | rfl | rfl | rfl | rfl | rfl | rfl <;>
        decide
    · simp [shouldPop, hmem]
  · intro top tok htok heq
    simp only [List.mem_cons, List.not_mem_nil, or_false] at htok
    by_cases hmem : top ∈ opSymbols
    · simp only [opSymbols, List.mem_cons, List.not_mem_nil, or_false] at hmem
      rcases htok with rfl | rfl | rfl <;>
        rcases hmem with rfl | rfl | rfl | rfl | rfl | rfl | rfl | rfl | rfl <;>
        first
          | decide
          | exact absurd heq (by decide)
    · simp [shouldPop, hmem]
  · intro ts out st tok htok
    have hnum : _is_number tok = false := opSymbols_not_number tok htok
    simp [rpnLoop, hnum, htok]

/-- C2 witness: `u-` (precedence 5) above an incoming `**` (precedence 4)
    pops, while `**` above an incoming `**` (equal precedence,
    right-associative) does not. -/
theorem shunting_pop_condition_witness :
    shouldPop "u-" "**" = true ∧ shouldPop "**" "**" = false :=
  ⟨(shunting_pop_condition.1 "u-" "**" (by decide)).mpr (by decide),
   shunting_pop_condition.2.1 "**" "**" (by decide) (by decide)⟩

theorem processUnary_getElem? (ts : List String) :
    ∀ (prev : Option String) (i : Nat),
      (processUnary prev ts)[i]? =
        (ts[i]?).map (classifyToken (if i = 0 then prev else ts[i - 1]?)) := by
  induction ts with
  | nil => intro prev i; simp [processUnary]
  | cons t ts ih =>
    intro prev i
    match i with
    | 0 => simp [processUnary]
    | j + 1 =>
      have harg : (if j = 0 then some t else ts[j - 1]?) = (t :: ts)[j]? := by
        match j with
        | 0 => simp
        | k + 1 => simp
      simp only [processUnary, List.getElem?_cons_succ]
      rw [ih (some t) j, harg]
      simp

theorem unary_condition_iff (p : String) :
    (p ∈ opSymbols ∧ headIsU p = false) ↔ p ∈ binarySymbols := by
  constructor
  · rintro ⟨hmem, hu⟩
    simp only [opSymbols, List.mem_cons, List.not_mem_nil, or_false] at hmem
    rcases hmem with rfl | rfl | rfl | rfl | rfl | rfl | rfl | rfl | rfl <;>
      first
        | decide
        | exact absurd hu (by decide)
  · intro h
    simp only [binarySymbols, List.mem_cons, List.not_mem_nil, or_false] at h
    rcases h with rfl | rfl | rfl | rfl | rfl | rfl | rfl <;>
      exact ⟨by decide, by decide⟩

/-- C5: a `+`/`-` token is retagged as unary exactly when it is the first
    token, or the preceding original token is `"("`, or the preceding
    original token is a binary operator symbol; in `"--5"` both signs
    qualify (the first sign's raw predecessor is the binary symbol `-`). -/
theorem unary_classification :
    (∀ (tokens : List String) (i : Nat) (t : String),
      tokens[i]? = some t → t ∈ (["+", "-"] : List String) →
      ((_process_unary_operators tokens)[i]? = some ("u" ++ t) ↔
        (i = 0 ∨ tokens[i - 1]? = some "(" ∨
          ∃ p, tokens[i - 1]? = some p ∧ p ∈ binarySymbols))) ∧
    _process_unary_operators ["-", "-", "5"] = ["u-", "u-", "5"] := by
  refine ⟨?_, by decide⟩
  intro tokens i t hget ht
  simp only [List.mem_cons, List.not_mem_nil, or_false] at ht
  have hb : (t == "+" || t == "-") = true := by
    rcases ht with rfl | rfl <;> decide
  have hne : "u" ++ t ≠ t := by
    rcases ht with rfl | rfl <;> decide
  rw [_process_unary_operators, processUnary_getElem?, hget,
    Option.map_some', Option.some_inj]
  have hclass : ∀ (prev : Option String),
      (classifyToken prev t = "u" ++ t ↔ isUnaryPosition prev = true) := by
    intro prev
    unfold classifyToken
    rcases hu : isUnaryPosition prev with _ | _
    · simp [hb, hu, hne.symm]
    · simp [hb, hu]
  match i with
  | 0 =>
    constructor
    · intro _
      exact .inl rfl
    · intro _
      rw [if_pos rfl, hclass none]
      rfl
  | j + 1 =>
    rw [if_neg (Nat.succ_ne_zero j)]
    simp only [Nat.add_sub_cancel]
    rw [hclass]
    have hlt : j + 1 < tokens.length := by
      rcases List.getElem?_eq_some_iff.mp hget with ⟨hl, _⟩
      exact hl
    have hj : j < tokens.length := Nat.lt_of_succ_lt hlt
    rcases hp : tokens[j]? with _ | p
    · rw [List.getElem?_eq_none_iff] at hp; omega
    · simp only [isUnaryPosition, Bool.or_eq_true, beq_iff_eq,
        Bool.and_eq_true, decide_eq_true_eq, Bool.not_eq_true',
        Option.some_inj]
      constructor
      · rintro (rfl | hbin)
        · exact .inr (.inl rfl)
        · exact .inr (.inr ⟨p, rfl, (unary_condition_iff p).mp hbin⟩)
      · rintro (h | h | h)
        · exact absurd h (Nat.succ_ne_zero j)
        · exact .inl h
        · rcases h with ⟨q, hpq, hq⟩
          cases hpq
          exact .inr ((unary_condition_iff p).mpr hq)

/-- C5 witness: in `"--5"` the second sign (index 1) is unary because its
    raw predecessor is the binary symbol `-`. -/
theorem unary_classification_witness :
    (_process_unary_operators ["-", "-", "5"])[1]? = some ("u" ++ "-") ↔
      ((1 : Nat) = 0 ∨ (["-", "-", "5"] : List String)[(1 : Nat) - 1]? = some "(" ∨
        ∃ p, (["-", "-", "5"] : List String)[(1 : Nat) - 1]? = some p ∧
          p ∈ binarySymbols) :=
  unary_classification.1 ["-", "-", "5"] 1 "-" (by decide) (by decide)

theorem parenSeq_cons_of_ne (t : String) (ts : List String)
    (h1 : t ≠ "(") (h2 : t ≠ ")") : parenSeq (t :: ts) = parenSeq ts := by
  simp [parenSeq, List.filter_cons, h1, h2]

theorem parenSeq_cons_lparen (ts : List String) :
    parenSeq ("(" :: ts) = "(" :: parenSeq ts := by
  simp [parenSeq, List.filter_cons]

theorem parenSeq_cons_rparen (ts : List String) :
    parenSeq (")" :: ts) = ")" :: parenSeq ts := by
  simp [parenSeq, List.filter_cons]

theorem balancedFrom_lparen (ps : List String) (n : Nat) :
    balancedFrom ("(" :: ps) n = balancedFrom ps (n + 1) := by
  simp [balancedFrom]

theorem balancedFrom_rparen_zero (ps : List String) :
    balancedFrom (")" :: ps) 0 = false := by
  simp [balancedFrom]

theorem balancedFrom_rparen_succ (ps : List String) (m : Nat) :
    balancedFrom (")" :: ps) (m + 1) = balancedFrom ps m := by
  simp [balancedFrom]

theorem isNumber_ne_paren (t : String) (h : _is_number t = true) :
    t ≠ "(" ∧ t ≠ ")" := by
  constructor
  · rintro rfl; exact absurd h (by decide)
  · rintro rfl; exact absurd h (by decide)

theorem opSymbols_ne_paren : ∀ t ∈ opSymbols, t ≠ "(" ∧ t ≠ ")" := by
  intro t ht
  simp only [opSymbols, List.mem_cons, List.not_mem_nil, or_false] at ht
  rcases ht with rfl | rfl | rfl | rfl | rfl | rfl | rfl | rfl | rfl <;>
    exact ⟨by decide, by decide⟩

theorem parenSeq_append (l1 l2 : List String) :
    parenSeq (l1 ++ l2) = parenSeq l1 ++ parenSeq l2 := by
  simp [parenSeq, List.filter_append]

theorem parenSeq_cons_split (x : String) (l : List String) :
    parenSeq (x :: l) = parenSeq [x] ++ parenSeq l := by
  rw [show (x :: l) = [x] ++ l from rfl, parenSeq_append]

theorem mk_single_eq_iff (c d : Char) : String.mk [c] = String.mk [d] ↔ c = d := by
  constructor
  · intro h
    have hd : [c] = [d] := congrArg String.data h
    simpa using hd
  · rintro rfl; rfl

theorem mk_single_paren (c : Char) :
    parenSeq [String.mk [c]] =
      (if c = '(' then ["("] else if c = ')' then [")"] else []) := by
  by_cases h1 : c = '('
  · subst h1; rfl
  · by_cases h2 : c = ')'
    · subst h2; rfl
    · rw [if_neg h1, if_neg h2]
      have hmk1 : (String.mk [c] == ("(" : String)) = false := by
        rw [beq_eq_false_iff_ne]
        intro hc
        exact h1 ((mk_single_eq_iff c '(').mp hc)
      have hmk2 : (String.mk [c] == (")" : String)) = false := by
        rw [beq_eq_false_iff_ne]
        intro hc
        exact h2 ((mk_single_eq_iff c ')').mp hc)
      simp [parenSeq, List.filter_cons, hmk1, hmk2]

theorem charParenSeq_cons (c : Char) (cs : List Char) :
    charParenSeq (c :: cs) =
      (if c = '(' then ["("] else if c = ')' then [")"] else []) ++
        charParenSeq cs := by
  rw [charParenSeq, List.filterMap_cons]
  by_cases h1 : c = '('
  · subst h1; rfl
  · by_cases h2 : c = ')'
    · subst h2; rfl
    · rw [if_neg h1, if_neg h2, if_neg h1, if_neg h2]
      rfl

theorem checkParenLoop_eq (cs : List Char) :
    ∀ st, checkParenLoop cs st = balancedFrom (charParenSeq cs) st.length := by
  induction cs with
  | nil =>
    intro st
    show st.isEmpty = balancedFrom [] st.length
    cases st <;> rfl
  | cons c cs ih =>
    intro st
    by_cases h1 : c = '('
    · subst h1
      have e : checkParenLoop ('(' :: cs) st = checkParenLoop cs ('(' :: st) := rfl
      rw [e, ih ('(' :: st), charParenSeq_cons, if_pos rfl,
        List.singleton_append, balancedFrom_lparen, List.length_cons]
    · by_cases h2 : c = ')'
      · subst h2
        rw [charParenSeq_cons, if_neg (by decide), if_pos rfl,
          List.singleton_append]
        match st with
        | [] =>
          have e : checkParenLoop (')' :: cs) [] = false := rfl
          rw [e, List.length_nil, balancedFrom_rparen_zero]
        | x :: st' =>
          have e : checkParenLoop (')' :: cs) (x :: st') =
              checkParenLoop cs st' := rfl
          rw [e, ih st', List.length_cons, balancedFrom_rparen_succ]
      · have e : checkParenLoop (c :: cs) st = checkParenLoop cs st := by
          show (if c = '(' then checkParenLoop cs (c :: st)
            else if c = ')' then
              match st with
              | [] => false
              | _ :: st' => checkParenLoop cs st'
            else checkParenLoop cs st) = checkParenLoop cs st
          rw [if_neg h1, if_neg h2]
        rw [e, ih st, charParenSeq_cons, if_neg h1, if_neg h2,
          List.nil_append]

theorem popWhileLoop_count (tok : String) :
    ∀ st out, ((popWhileLoop st out tok).1).count "(" = st.count "(" := by
  intro st
  induction st with
  | nil => intro out; simp [popWhileLoop]
  | cons top rest ih =>
    intro out
    by_cases h : top ≠ "(" ∧ shouldPop top tok = true
    · rw [popWhileLoop, if_pos h, ih (out ++ [top]),
        List.count_cons_of_ne (fun he => h.1 he.symm)]
    · rw [popWhileLoop, if_neg h]

theorem popUntilLParen_none :
    ∀ st out, (popUntilLParen st out = none ↔ st.count "(" = 0) := by
  intro st
  induction st with
  | nil => intro out; simp [popUntilLParen]
  | cons top rest ih =>
    intro out
    by_cases h : top = "("
    · subst h
      simp [popUntilLParen, List.count_cons_self]
    · rw [popUntilLParen, if_neg h, ih (out ++ [top]),
        List.count_cons_of_ne (fun he => h he.symm)]

theorem popUntilLParen_some :
    ∀ st out st' out', popUntilLParen st out = some (st', out') →
      st'.count "(" + 1 = st.count "(" := by
  intro st
  induction st with
  | nil => intro out st' out' h; cases h
  | cons top rest ih =>
    intro out st' out' h
    by_cases hp : top = "("
    · subst hp
      rw [popUntilLParen, if_pos rfl] at h
      cases h
      rw [List.count_cons_self]
    · rw [popUntilLParen, if_neg hp] at h
      rw [List.count_cons_of_ne (fun he => hp he.symm), ← ih _ _ _ h]

theorem drainStack_cases :
    ∀ st out,
      (st.count "(" = 0 ∧ ∃ res, drainStack st out = .ok res) ∨
      (st.count "(" ≠ 0 ∧ drainStack st out =
        .error (.calcErr (.invalidExpr .unbalancedParentheses))) := by
  intro st
  induction st with
  | nil => intro out; exact .inl ⟨rfl, out, rfl⟩
  | cons top rest ih =>
    intro out
    by_cases hp : top = "("
    · subst hp
      refine .inr ⟨?_, by rw [drainStack, if_pos rfl]⟩
      rw [List.count_cons_self]; omega
    · rw [drainStack, if_neg hp]
      rcases ih (out ++ [top]) with ⟨hc, res, hres⟩ | ⟨hc, herr⟩
      · exact .inl ⟨by rw [List.count_cons_of_ne (fun he => hp he.symm)]; exact hc,
          res, hres⟩
      · exact .inr ⟨by rw [List.count_cons_of_ne (fun he => hp he.symm)]; exact hc,
          herr⟩

theorem rpnLoop_cases :
    ∀ ts out st,
      (balancedFrom (parenSeq ts) (st.count "(") = true ∧
        ∃ res, rpnLoop ts out st = .ok res) ∨
      (balancedFrom (parenSeq ts) (st.count "(") = false ∧
        rpnLoop ts out st =
          .error (.calcErr (.invalidExpr .unbalancedParentheses))) := by
  intro ts
  induction ts with
  | nil =>
    intro out st
    rcases drainStack_cases st out with ⟨hc, res, hres⟩ | ⟨hc, herr⟩
    · refine .inl ⟨?_, res, by rw [rpnLoop]; exact hres⟩
      simp [parenSeq, balancedFrom, hc]
    · refine .inr ⟨?_, by rw [rpnLoop]; exact herr⟩
      simp only [parenSeq, List.filter_nil, balancedFrom]
      simpa using hc
  | cons t ts ih =>
    intro out st
    by_cases hnum : _is_number t = true
    · have hne := isNumber_ne_paren t hnum
      rw [parenSeq_cons_of_ne t ts hne.1 hne.2]
      have hstep : rpnLoop (t :: ts) out st = rpnLoop ts (out ++ [t]) st := by
        rw [rpnLoop, if_pos hnum]
      rw [hstep]
      exact ih (out ++ [t]) st
    · by_cases hmem : t ∈ opSymbols
      · have hne := opSymbols_ne_paren t hmem
        rw [parenSeq_cons_of_ne t ts hne.1 hne.2]
        have hstep : rpnLoop (t :: ts) out st =
            rpnLoop ts (popWhileLoop st out t).2
              (t :: (popWhileLoop st out t).1) := by
          rw [rpnLoop, if_neg (by simp [hnum]), if_pos hmem]
        rw [hstep]
        have hcnt : (t :: (popWhileLoop st out t).1).count "(" = st.count "(" := by
          rw [List.count_cons_of_ne (fun he => hne.1 he.symm),
            popWhileLoop_count]
        rw [← hcnt]
        exact ih (popWhileLoop st out t).2 (t :: (popWhileLoop st out t).1)
      · by_cases hlp : t = "("
        · subst hlp
          rw [parenSeq_cons_lparen, balancedFrom_lparen]
          have hstep : rpnLoop ("(" :: ts) out st = rpnLoop ts out ("(" :: st) := by
            rw [rpnLoop, if_neg (by simp [hnum]), if_neg hmem, if_pos rfl]
          rw [hstep]
          have hcnt : ("(" :: st).count "(" = st.count "(" + 1 :=
            List.count_cons_self "(" st
          rw [← hcnt]
          exact ih out ("(" :: st)
        · by_cases hrp : t = ")"
          · subst hrp
            rw [parenSeq_cons_rparen]
            rcases hpu : popUntilLParen st out with _ | ⟨st', out'⟩
            · have hc0 : st.count "(" = 0 := (popUntilLParen_none st out).mp hpu
              refine .inr ⟨?_, ?_⟩
              · rw [hc0, balancedFrom_rparen_zero]
              · rw [rpnLoop, if_neg (by simp [hnum]), if_neg hmem,
                  if_neg (by decide), if_pos rfl, hpu]
            · have hc1 : st'.count "(" + 1 = st.count "(" :=
                popUntilLParen_some st out st' out' hpu
              have hstep : rpnLoop (")" :: ts) out st = rpnLoop ts out' st' := by
                rw [rpnLoop, if_neg (by simp [hnum]), if_neg hmem,
                  if_neg (by decide), if_pos rfl, hpu]
              rw [hstep, ← hc1, balancedFrom_rparen_succ]
              exact ih out' st'
          · rw [parenSeq_cons_of_ne t ts hlp hrp]
            have hstep : rpnLoop (t :: ts) out st = rpnLoop ts out st := by
              rw [rpnLoop, if_neg (by simp [hnum]), if_neg hmem,
                if_neg hlp, if_neg hrp]
            rw [hstep]
            exact ih out st

theorem flushNum_parens (num : List Char)
    (h : ∀ c ∈ num, c.isDigit = true ∨ c = '.') :
    parenSeq (flushNum num) = [] := by
  unfold flushNum
  split_ifs with he
  · rfl
  · have h1 : String.mk num ≠ "(" := by
      intro hc
      have hdata : num = ("(" : String).data := congrArg String.data hc
      have : ('(' : Char) ∈ num := by rw [hdata]; decide
      rcases h '(' this with hd | hd <;> exact absurd hd (by decide)
    have h2 : String.mk num ≠ ")" := by
      intro hc
      have hdata : num = (")" : String).data := congrArg String.data hc
      have : (')' : Char) ∈ num := by rw [hdata]; decide
      rcases h ')' this with hd | hd <;> exact absurd hd (by decide)
    simp [parenSeq, List.filter_cons, h1, h2]

theorem scanAux_parens (num cs : List Char) :
    (∀ c ∈ num, c.isDigit = true ∨ c = '.') →
    parenSeq (scanAux num cs) = charParenSeq cs := by
  induction num, cs using scanAux.induct with
  | case1 num =>
    intro h
    rw [scanAux.eq_1, flushNum_parens num h]
    rfl
  | case2 num cs ih =>
    intro h
    rw [scanAux.eq_2, List.append_cons, parenSeq_append, parenSeq_append,
      flushNum_parens num h, ih (by intro c hc; cases hc),
      charParenSeq_cons, charParenSeq_cons]
    rfl
  | case3 num cs ih =>
    intro h
    rw [scanAux.eq_3, List.append_cons, parenSeq_append, parenSeq_append,
      flushNum_parens num h, ih (by intro c hc; cases hc),
      charParenSeq_cons, charParenSeq_cons]
    rfl
  | case4 num c cs hg1 hg2 hcd ih =>
    intro h
    rw [scanAux.eq_4 num c cs hg1 hg2, if_pos hcd]
    have hnum : ∀ x ∈ num ++ [c], x.isDigit = true ∨ x = '.' := by
      intro x hx
      rcases List.mem_append.mp hx with hx | hx
      · exact h x hx
      · rw [List.mem_singleton.mp hx]
        rcases (Bool.or_eq_true _ _).mp hcd with hd | hd
        · exact .inl hd
        · exact .inr (by simpa using hd)
    have hc1 : c ≠ '(' := by rintro rfl; exact absurd hcd (by decide)
    have hc2 : c ≠ ')' := by rintro rfl; exact absurd hcd (by decide)
    rw [ih hnum, charParenSeq_cons, if_neg hc1, if_neg hc2,
      List.nil_append]
  | case5 num c cs hg1 hg2 hcd hsingle ih =>
    intro h
    rw [scanAux.eq_4 num c cs hg1 hg2, if_neg hcd, if_pos hsingle,
      List.append_cons, parenSeq_append, parenSeq_append,
      flushNum_parens num h, ih (by intro x hx; cases hx),
      mk_single_paren, charParenSeq_cons, List.nil_append]
  | case6 num c cs hg1 hg2 hcd hsingle hws ih =>
    intro h
    rw [scanAux.eq_4 num c cs hg1 hg2, if_neg hcd, if_neg hsingle,
      if_pos hws, parenSeq_append, flushNum_parens num h,
      ih (by intro x hx; cases hx), charParenSeq_cons]
    have hc1 : c ≠ '(' := by rintro rfl; exact hsingle (by decide)
    have hc2 : c ≠ ')' := by rintro rfl; exact hsingle (by decide)
    rw [if_neg hc1, if_neg hc2]
  | case7 num c cs hg1 hg2 hcd hsingle hws ih =>
    intro h
    rw [scanAux.eq_4 num c cs hg1 hg2, if_neg hcd, if_neg hsingle,
      if_neg hws, List.append_cons, parenSeq_append, parenSeq_append,
      flushNum_parens num h, ih (by intro x hx; cases hx),
      mk_single_paren, charParenSeq_cons, List.nil_append]

theorem parenSeq_single_classify (prev : Option String) (t : String) :
    parenSeq [classifyToken prev t] = parenSeq [t] := by
  unfold classifyToken
  split_ifs with h
  · have ht : t = "+" ∨ t = "-" := by
      rcases (Bool.and_eq_true _ _).mp h with ⟨hb, _⟩
      rcases (Bool.or_eq_true _ _).mp hb with hb | hb
      · exact .inl (by simpa using hb)
      · exact .inr (by simpa using hb)
    rcases ht with rfl | rfl <;> rfl
  · rfl

theorem processUnary_parens :
    ∀ (ts : List String) (prev : Option String),
      parenSeq (processUnary prev ts) = parenSeq ts := by
  intro ts
  induction ts with
  | nil => intro prev; rfl
  | cons t ts ih =>
    intro prev
    have e : processUnary prev (t :: ts) =
        classifyToken prev t :: processUnary (some t) ts := rfl
    rw [e, parenSeq_cons_split, parenSeq_cons_split t,
      parenSeq_single_classify, ih (some t)]

theorem tokenize_parens (s : String) (ts : List String)
    (h : tokenize s = .ok ts) : parenSeq ts = charParenSeq s.data := by
  simp only [tokenize] at h
  rcases hf : (scanAux [] s.data).find? (fun t => !isValidToken t) with _ | t
  · rw [hf] at h
    simp only [Except.ok.injEq] at h
    rw [← h, _process_unary_operators, processUnary_parens,
      scanAux_parens [] s.data (by intro c hc; cases hc)]
  · rw [hf] at h
    cases h

/-- C9 (amended): for every expression string whose tokenization
    succeeds, the raw-character pre-check `_check_parentheses` succeeds
    exactly when `to_rpn` on the token list does not raise the
    unbalanced-parentheses error.  (When tokenization itself fails the
    converter never runs, so the original unrestricted equivalence fails;
    see the counterexample.) -/
theorem precheck_agrees_with_converter (s : String) (ts : List String)
    (h : tokenize s = .ok ts) :
    (_check_parentheses s = true ↔
      to_rpn ts ≠ .error (.calcErr (.invalidExpr .unbalancedParentheses))) := by
  have h1 : _check_parentheses s = balancedFrom (parenSeq ts) 0 := by
    rw [_check_parentheses, checkParenLoop_eq s.data [],
      tokenize_parens s ts h]
    rfl
  rcases rpnLoop_cases ts [] [] with ⟨hb, res, hres⟩ | ⟨hb, herr⟩
  · rw [h1]
    have hcnt : ([] : List String).count "(" = 0 := rfl
    rw [hcnt] at hb
    rw [hb]
    simp only [true_iff]
    intro hc
    rw [to_rpn] at hc
    rw [hc] at hres
    cases hres
  · rw [h1]
    have hcnt : ([] : List String).count "(" = 0 := rfl
    rw [hcnt] at hb
    rw [hb]
    simp only [Bool.false_eq_true, false_iff, not_not]
    rw [to_rpn]
    exact herr

/-- C9 witness: on `"(1+2)"` the tokenization succeeds, the pre-check
    passes, and the converter raises no unbalanced-parentheses error. -/
theorem precheck_agrees_with_converter_witness :
    _check_parentheses "(1+2)" = true ↔
      to_rpn ["(", "1", "+", "2", ")"] ≠
        .error (.calcErr (.invalidExpr .unbalancedParentheses)) :=
  precheck_agrees_with_converter "(1+2)" ["(", "1", "+", "2", ")"] (by decide)

/-- C9 counterexample: on `"(@"` the pre-check fails, yet the pipeline
    `to_rpn ∘ tokenize` does not raise the unbalanced-parentheses error —
    tokenization already fails with the invalid-symbol error — so the
    claimed equivalence over every expression string is false. -/
theorem precheck_converter_counterexample :
    _check_parentheses "(@" = false ∧
    (tokenize "(@" >>= to_rpn) =
      .error (.calcErr (.invalidExpr (.invalidSymbol "@"))) ∧
    (tokenize "(@" >>= to_rpn) ≠
      .error (.calcErr (.invalidExpr .unbalancedParentheses)) := by
  refine ⟨by decide, ?_, ?_⟩
  · show (Except.bind (tokenize "(@") to_rpn) =
      .error (.calcErr (.invalidExpr (.invalidSymbol "@")))
    decide
  · show (Except.bind (tokenize "(@") to_rpn) ≠
      .error (.calcErr (.invalidExpr .unbalancedParentheses))
    decide

end Calc
